import Mathlib

/-!
Verification development for the perfana-cli repository.

Each Go source function relevant to the frozen claims is shallowly embedded
as an executable Lean definition, and the claims are settled as theorems
about those definitions.

Sources embedded:
  * `src/util/iso_duration_parser.go` (`ParseISODuration`)
  * `src/perfana_client/config.go` (`Configuration`)
  * `src/perfana_client/perfana_client.go` (`NewClient`, `createTLSClient`,
    `Init`, `TestEvent`, `makeRequest`)
  * `src/cmd/init.go` (`startCmd`: duration computation, keep-alive
    goroutine, timeout / interrupt select)

External collaborators (Go standard library and third-party packages) are
modelled as abstract parameters (`crypto/tls` key-pair loading,
`encoding/json` decoding, the HTTP transport) or, for the YAML profile
persistence of §6 of the spec, as an explicit document model (see the
`marshalConfiguration` section below).
-/

namespace PerfanaCli

/-! ## Duration parser (src/util/iso_duration_parser.go)

Go code: `re := regexp.MustCompile("PT(\\d+)m")`, then
`matches := re.FindStringSubmatch(duration)`; if there is no match the
function returns `(0, invalid-format error)`; otherwise the captured digit
group is fed to `strconv.Atoi` and its value returned.

Go's regexp engine returns the leftmost match; the pattern is not anchored,
so a match anywhere inside the string succeeds.  Because the digit class
and the literal `m` are disjoint, the capture at the leftmost matching
position is exactly the maximal digit run there.
-/

/-- Attempt to match the pattern `PT(\d+)m` at the head of the character
list; on success return the captured digit run. -/
def tryMatchAt (cs : List Char) : Option (List Char) :=
  match cs with
  | 'P' :: 'T' :: rest =>
    let ds := rest.takeWhile (fun c => c.isDigit)
    if ds.isEmpty then none
    else
      match rest.drop ds.length with
      | 'm' :: _ => some ds
      | _ => none
  | _ => none

/-- Scan for the leftmost occurrence of `PT(\d+)m`, mirroring
`regexp.FindStringSubmatch` for this pattern: try each start position from
the left, returning the first capture. -/
def findPTm : List Char → Option (List Char)
  | [] => none
  | c :: cs =>
    match tryMatchAt (c :: cs) with
    | some ds => some ds
    | none => findPTm cs

/-- Numeric value denoted by a decimal digit string. -/
def digitsToNat (ds : List Char) : Nat :=
  ds.foldl (fun acc c => acc * 10 + (c.toNat - 48)) 0

/-- Largest value of Go's 64-bit `int` (the reference build platforms). -/
def int64Max : Nat := 9223372036854775807

/-- Model of `strconv.Atoi` restricted to its use site, where the input is
a non-empty decimal digit string (the regex capture group): it yields the
denoted value unless it overflows Go's `int`, in which case it reports a
range error. -/
def goAtoi (ds : List Char) : Except String Nat :=
  if digitsToNat ds ≤ int64Max then .ok (digitsToNat ds)
  else .error "value out of range"

/-- Errors produced by `ParseISODuration`; `invalidFormat` carries the
offending input, mirroring
`fmt.Errorf("invalid ISO 8601 duration format: %s", duration)`. -/
inductive DurationError where
  | invalidFormat (input : String)
  | convertError (msg : String)
deriving DecidableEq

/-- Embedding of `util.ParseISODuration`.  Go returns the pair
`(int, error)`; on every error path the int component is `0`, which the
caller in `startCmd` then uses as the minute count. -/
def ParseISODuration (duration : String) : Nat × Option DurationError :=
  match findPTm duration.data with
  | none => (0, some (.invalidFormat duration))
  | some ds =>
    match goAtoi ds with
    | .error e => (0, some (.convertError e))
    | .ok n => (n, none)

/-- Declarative (scanner-independent) statement that the pattern
`PT(\d+)m` matches at position `i` of `cs` with capture `ds`: used to
state claim C3 without referring to `findPTm`. -/
def IsPTmAt (cs : List Char) (i : Nat) (ds : List Char) : Prop :=
  ds ≠ [] ∧ ds.all (fun c => c.isDigit) ∧
    ∃ post, cs.drop i = 'P' :: 'T' :: (ds ++ 'm' :: post)

/-! ## Duration computation in the coordinator (src/cmd/init.go 602-614)

`rampupTimeMinutes, err := util.ParseISODuration(rampupTime)` — the error
is printed but execution continues with the returned value (0 on error);
likewise for `constantLoadTime`; then
`runDuration := rampupTimeMinutes + constantLoadTimeMinutes`.
-/

/-- Two's-complement wrap of Go's 64-bit signed `int` addition for
operands that are already in `[0, int64Max]` (as every value returned by
`ParseISODuration` is). -/
def goIntAdd (a b : Nat) : Int :=
  if a + b ≤ int64Max then ((a + b : Nat) : Int)
  else ((a + b : Nat) : Int) - 2 ^ 64

/-- The `runDuration` computed by `startCmd` from the two duration
flags. -/
def runDurationMinutes (rampupTime constantLoadTime : String) : Int :=
  goIntAdd (ParseISODuration rampupTime).1 (ParseISODuration constantLoadTime).1

/-- The parse errors `startCmd` prints while computing the run duration
(one `fmt.Printf` branch per flag). -/
def reportedParseErrors (rampupTime constantLoadTime : String) : List DurationError :=
  (ParseISODuration rampupTime).2.toList ++ (ParseISODuration constantLoadTime).2.toList

/-! ## Configuration (src/perfana_client/config.go) -/

/-- The nested `mtls` block of the YAML configuration. -/
structure MTLSSettings where
  enabled : Bool
  clientCert : String
  clientKey : String
deriving DecidableEq

/-- Embedding of `perfana_client.Configuration`. -/
structure Configuration where
  apiKey : String
  baseUrl : String
  clientIdentifier : String
  systemUnderTest : String
  environment : String
  workload : String
  mtls : MTLSSettings
deriving DecidableEq

/-! ## Service client construction (src/perfana_client/perfana_client.go
lines 62-112: `NewClient`, `createTLSClient`)

`crypto/tls.X509KeyPair` is an external collaborator; it is abstracted as
a function argument returning either a parse/mismatch error or success.
-/

/-- Observable shape of the `http.Client` built by `NewClient`: the fixed
10-second timeout and whether the transport presents a client
certificate. -/
structure HttpClientModel where
  timeoutSeconds : Nat
  usesMTLS : Bool
deriving DecidableEq

/-- Embedding of `perfana_client.PerfanaClient`. -/
structure PerfanaClient where
  httpClient : HttpClientModel
  config : Configuration
deriving DecidableEq

/-- Embedding of `createTLSClient`: loads the certificate/key pair via the
abstracted `tls.X509KeyPair` and on success returns a client with a TLS
transport and the 10-second timeout. -/
def createTLSClient (x509KeyPair : String → String → Except String Unit)
    (config : Configuration) : Except String HttpClientModel :=
  match x509KeyPair config.mtls.clientCert config.mtls.clientKey with
  | .error e => .error ("failed to load client certificate and key: " ++ e)
  | .ok _ => .ok { timeoutSeconds := 10, usesMTLS := true }

/-- Embedding of `NewClient`: rejects an empty `baseUrl`; without mTLS it
builds the default 10-second-timeout client; with mTLS it defers to
`createTLSClient` and wraps its error. -/
def NewClient (x509KeyPair : String → String → Except String Unit)
    (config : Configuration) : Except String PerfanaClient :=
  if config.baseUrl = "" then .error "baseUrl is required"
  else if config.mtls.enabled = false then
    .ok { httpClient := { timeoutSeconds := 10, usesMTLS := false }, config := config }
  else
    match createTLSClient x509KeyPair config with
    | .error e => .error ("failed to create TLS client: " ++ e)
    | .ok tlsClient => .ok { httpClient := tlsClient, config := config }

/-- Boolean error discriminator for `Except`. -/
def exceptIsError {ε α : Type} : Except ε α → Bool
  | .error _ => true
  | .ok _ => false

/-! ## Shared request helper (src/perfana_client/perfana_client.go
lines 212-245: `makeRequest`)

The HTTP exchange itself is external; its outcome is a parameter: either a
network-level failure (`httpClient.Do` error) or a response with a status
code, a status line and a body.  `makeRequest` turns a status code of 400
or above into an error carrying status and body, and otherwise returns the
body. -/

/-- Outcome of the underlying `httpClient.Do` call. -/
structure HttpResponse where
  statusCode : Nat
  status : String
  body : String
deriving DecidableEq

/-- Errors surfaced by `makeRequest`: a transport failure, or the HTTP
error built by `fmt.Errorf("HTTP error: %s (%d): %s", resp.Status,
resp.StatusCode, string(body))`. -/
inductive RequestError where
  | transport (msg : String)
  | http (status : String) (statusCode : Nat) (body : String)
deriving DecidableEq

/-- Embedding of `makeRequest` applied to the outcome of the transport. -/
def makeRequest (transportResult : Except String HttpResponse) :
    Except RequestError String :=
  match transportResult with
  | .error e => .error (.transport e)
  | .ok resp =>
    if resp.statusCode ≥ 400 then .error (.http resp.status resp.statusCode resp.body)
    else .ok resp.body

/-! ## Init (src/perfana_client/perfana_client.go lines 117-149)

`encoding/json` is external: decoding the response body into the
anonymous struct with field `testRunId` is abstracted as a function from
the body to either a decode error or the optional field value (Go's
`json.Unmarshal` leaves an absent field at its zero value `""`). -/

/-- Errors surfaced by `Init`. -/
inductive InitError where
  | request (e : RequestError)
  | parse (msg : String)
  | emptyRunId
deriving DecidableEq

/-- Embedding of `Init`: make the request, decode the body, reject an
empty or absent `testRunId` (`"received empty testRunId in the
response"`), otherwise return it. -/
def Init (transportResult : Except String HttpResponse)
    (decodeTestRunId : String → Except String (Option String)) :
    Except InitError String :=
  match makeRequest transportResult with
  | .error e => .error (.request e)
  | .ok body =>
    match decodeTestRunId body with
    | .error msg => .error (.parse msg)
    | .ok field =>
      let testRunID := field.getD ""
      if testRunID = "" then .error .emptyRunId
      else .ok testRunID

/-! ## TestEvent message construction (src/perfana_client/perfana_client.go
lines 152-188)

`additionalData` is a Go `map[string]interface{}`; each optional field is
read with `if v, ok := additionalData[key]; ok { message.Field =
v.(typ) }`.  A type assertion `v.(typ)` on a value of a different dynamic
type panics.  The dynamic values are modelled by `GoValue`, the map by an
association list, and a panic by `none`. -/

/-- Embedding of `perfana_client.Variable`. -/
structure Variable where
  placeholder : String
  value : String
deriving DecidableEq

/-- Embedding of `perfana_client.DeepLink`. -/
structure DeepLink where
  name : String
  url : String
  type : String
  pluginName : String
deriving DecidableEq

/-- Embedding of `perfana_client.PerfanaMessage`. -/
structure PerfanaMessage where
  testRunId : String
  workload : String
  testEnvironment : String
  systemUnderTest : String
  version : String
  cibuildResultsUrl : String
  rampUp : String
  duration : String
  completed : Bool
  annotations : String
  tags : List String
  variableList : List Variable
  deepLinks : List DeepLink
deriving DecidableEq

/-- Dynamic values that can be stored in the `map[string]interface{}`
passed to `TestEvent` (the types actually asserted, plus other types to
represent ill-typed entries). -/
inductive GoValue where
  | str (s : String)
  | strSlice (xs : List String)
  | varSlice (xs : List Variable)
  | linkSlice (xs : List DeepLink)
  | intVal (n : Int)
  | boolVal (b : Bool)
deriving DecidableEq

/-- Go `v.(string)` on an optional map entry: absent key leaves the field
untouched (`some none`); a string succeeds; anything else panics
(`none`). -/
def assertString : Option GoValue → Option (Option String)
  | none => some none
  | some (.str s) => some (some s)
  | some _ => none

/-- Go `v.([]string)` on an optional map entry. -/
def assertStringSlice : Option GoValue → Option (Option (List String))
  | none => some none
  | some (.strSlice xs) => some (some xs)
  | some _ => none

/-- Go `v.([]Variable)` on an optional map entry. -/
def assertVariableSlice : Option GoValue → Option (Option (List Variable))
  | none => some none
  | some (.varSlice xs) => some (some xs)
  | some _ => none

/-- Go `v.([]DeepLink)` on an optional map entry. -/
def assertDeepLinkSlice : Option GoValue → Option (Option (List DeepLink))
  | none => some none
  | some (.linkSlice xs) => some (some xs)
  | some _ => none

/-- Embedding of the message-building prefix of `TestEvent` (before the
JSON marshal and HTTP call): the eight sequential optional-field reads
with their runtime type assertions.  The result is `none` when one of the
assertions panics. -/
def TestEvent_buildMessage (config : Configuration) (testRunID : String)
    (additionalData : List (String × GoValue)) (completed : Bool) :
    Option PerfanaMessage := do
  let version ← assertString (additionalData.lookup "version")
  let cibuildResultsUrl ← assertString (additionalData.lookup "cibuildResultsUrl")
  let rampUp ← assertString (additionalData.lookup "rampUp")
  let duration ← assertString (additionalData.lookup "duration")
  let annotationsVal ← assertString (additionalData.lookup "annotations")
  let tags ← assertStringSlice (additionalData.lookup "tags")
  let variableList ← assertVariableSlice (additionalData.lookup "variables")
  let deepLinks ← assertDeepLinkSlice (additionalData.lookup "deepLinks")
  pure { testRunId := testRunID
       , workload := config.workload
       , testEnvironment := config.environment
       , systemUnderTest := config.systemUnderTest
       , version := version.getD ""
       , cibuildResultsUrl := cibuildResultsUrl.getD ""
       , rampUp := rampUp.getD ""
       , duration := duration.getD ""
       , completed := completed
       , annotations := annotationsVal.getD ""
       , tags := tags.getD []
       , variableList := variableList.getD []
       , deepLinks := deepLinks.getD [] }

/-- Whether a dynamic value is a Go `string`. -/
def isStrVal : GoValue → Bool
  | .str _ => true
  | _ => false

/-- Whether a dynamic value is a Go `[]string`. -/
def isStrSliceVal : GoValue → Bool
  | .strSlice _ => true
  | _ => false

/-- Whether a dynamic value is a Go `[]Variable`. -/
def isVarSliceVal : GoValue → Bool
  | .varSlice _ => true
  | _ => false

/-- Whether a dynamic value is a Go `[]DeepLink`. -/
def isLinkSliceVal : GoValue → Bool
  | .linkSlice _ => true
  | _ => false

/-- The five `additionalData` keys asserted to `string` by `TestEvent`. -/
def stringKeys : List String :=
  ["version", "cibuildResultsUrl", "rampUp", "duration", "annotations"]

/-- An `additionalData` entry whose dynamic type differs from the type
`TestEvent` asserts for its key. -/
def MismatchedEntry (k : String) (v : GoValue) : Prop :=
  (k ∈ stringKeys ∧ isStrVal v = false)
  ∨ (k = "tags" ∧ isStrSliceVal v = false)
  ∨ (k = "variables" ∧ isVarSliceVal v = false)
  ∨ (k = "deepLinks" ∧ isLinkSliceVal v = false)

/-- Sample configuration used for concrete instantiations. -/
def sampleConfig : Configuration :=
  { apiKey := "key", baseUrl := "http://localhost:4000"
  , clientIdentifier := "ci", systemUnderTest := "sut"
  , environment := "env", workload := "wl"
  , mtls := { enabled := false, clientCert := "", clientKey := "" } }

/-! ## Persisted YAML profile (claim C9)

Modelled from the spec: the YAML marshalling/unmarshalling of the profile
is performed by the third-party `gopkg.in/yaml.v3` package, which is not
part of this repository's sources.  Per §6 of the spec, the persisted
configuration is "a YAML document with keys `apiKey`, `baseUrl`,
`clientIdentifier`, `systemUnderTest`, `environment`, `workload`, and
nested `mtls: {enabled, clientCert, clientKey}` holding PEM text".  The
document is modelled as key/value pairs whose scalar values are encoded
with an escaping scheme for backslashes and newlines, so that multi-line
PEM text is exercised by the round-trip. -/

/-- Escape backslashes and newlines in a scalar value. -/
def escChars : List Char → List Char
  | [] => []
  | c :: cs =>
    if c = '\\' then '\\' :: '\\' :: escChars cs
    else if c = '\n' then '\\' :: 'n' :: escChars cs
    else c :: escChars cs

/-- Decode the escaping applied by `escChars`. -/
def unescChars : List Char → List Char
  | [] => []
  | [c] => [c]
  | c1 :: c2 :: cs =>
    if c1 = '\\' then (if c2 = 'n' then '\n' else c2) :: unescChars cs
    else c1 :: unescChars (c2 :: cs)

/-- Escape a scalar string value for the persisted document. -/
def escValue (s : String) : String := String.mk (escChars s.data)

/-- Decode a scalar string value of the persisted document. -/
def unescValue (s : String) : String := String.mk (unescChars s.data)

/-- Modelled from the spec: write a `Configuration` to the persisted
profile document (the `yaml.Marshal` step of `initCmd`), one key per
field, nested `mtls` keys flattened with a `mtls.` path. -/
def marshalConfiguration (c : Configuration) : List (String × String) :=
  [ ("apiKey", escValue c.apiKey)
  , ("baseUrl", escValue c.baseUrl)
  , ("clientIdentifier", escValue c.clientIdentifier)
  , ("systemUnderTest", escValue c.systemUnderTest)
  , ("environment", escValue c.environment)
  , ("workload", escValue c.workload)
  , ("mtls.enabled", escValue (if c.mtls.enabled then "true" else "false"))
  , ("mtls.clientCert", escValue c.mtls.clientCert)
  , ("mtls.clientKey", escValue c.mtls.clientKey) ]

/-- Read one scalar field of the persisted document by key. -/
def parseField (doc : List (String × String)) (key : String) : String :=
  match doc.lookup key with
  | some v => unescValue v
  | none => ""

/-- Modelled from the spec: reload a `Configuration` from the persisted
profile document (the `yaml.Unmarshal` step of `startCmd`). -/
def unmarshalConfiguration (doc : List (String × String)) : Configuration :=
  { apiKey := parseField doc "apiKey"
  , baseUrl := parseField doc "baseUrl"
  , clientIdentifier := parseField doc "clientIdentifier"
  , systemUnderTest := parseField doc "systemUnderTest"
  , environment := parseField doc "environment"
  , workload := parseField doc "workload"
  , mtls :=
    { enabled := parseField doc "mtls.enabled" == "true"
    , clientCert := parseField doc "mtls.clientCert"
    , clientKey := parseField doc "mtls.clientKey" } }

/-! ## Run lifecycle coordinator (src/cmd/init.go lines 644-718)

After a successful `Init`, `startCmd` sends the start event (returning on
failure), spawns the keep-alive goroutine (a `select` over the 30-second
ticker channel and `stopChan`), registers the interrupt handler, and then
`select`s over the session timeout and the signal channel; the chosen
branch first runs `close(stopChan)` and then sends the terminal report
(the `completed=true` `TestEvent`, or the abort `SendPerfanaEvent`).

The interleavings of the main flow and the goroutine are modelled as a
transition system.  One transition is one atomic action: the start of a
remote call (appended to the trace), a ticker tick being buffered, the
`close(stopChan)` + branch choice of the main `select`, or the goroutine
observing the closed channel and returning.  Go's `select` chooses
uniformly at random among ready cases, so while a tick is buffered AND
`stopChan` is closed, both the keep-alive branch and the stop branch of
the goroutine are enabled. -/

/-- Remote calls made by the coordinator, each with the outcome of the
call (`ok = false` means the call returned an error). -/
inductive EventCall where
  | startEvent (ok : Bool)
  | keepAlive (ok : Bool)
  | completion (ok : Bool)
  | abortEvent (ok : Bool)
deriving DecidableEq

/-- Control point of the main flow of `startCmd` after a successful
`Init`. -/
inductive MainPhase where
  | sendStart
  | selecting
  | sendCompletion
  | sendAbort
  | done
deriving DecidableEq

/-- State of the keep-alive goroutine. -/
inductive GoroPhase where
  | notStarted
  | running
  | exited
deriving DecidableEq

/-- Global state of the coordinator model: main-flow control point,
goroutine state, whether `stopChan` has been closed, whether a ticker
tick is buffered in `keepAliveTicker.C`, and the ordered trace of remote
calls started so far. -/
structure CoordState where
  main : MainPhase
  goro : GoroPhase
  stopClosed : Bool
  tickPending : Bool
  trace : List EventCall
deriving DecidableEq

/-- Initial state: `Init` has just returned a run id; the start event is
about to be sent. -/
def coordInit : CoordState := ⟨.sendStart, .notStarted, false, false, []⟩

/-- One atomic transition of the coordinator.  `startOk`/`startFail`: the
start `TestEvent` (on failure `startCmd` returns at once, spawning
nothing).  `tick`: the ticker fires while the goroutine lives.
`keepAlive`: the goroutine's `select` takes the ticker case (enabled
whenever a tick is buffered — also after `close(stopChan)`, since a Go
`select` picks randomly among ready cases).  `goroStop`: the goroutine's
`select` takes the `stopChan` case and returns.  `timeout`/`interrupt`:
the main `select` resolves and runs `close(stopChan)`.
`completionEvent`/`abortEventSend`: the terminal report. -/
inductive Step : CoordState → CoordState → Prop where
  | startOk (g : GoroPhase) (st tp : Bool) (tr : List EventCall) :
      Step ⟨.sendStart, g, st, tp, tr⟩
        ⟨.selecting, .running, st, tp, tr ++ [.startEvent true]⟩
  | startFail (g : GoroPhase) (st tp : Bool) (tr : List EventCall) :
      Step ⟨.sendStart, g, st, tp, tr⟩
        ⟨.done, g, st, tp, tr ++ [.startEvent false]⟩
  | tick (m : MainPhase) (st tp : Bool) (tr : List EventCall) :
      Step ⟨m, .running, st, tp, tr⟩ ⟨m, .running, st, true, tr⟩
  | keepAlive (m : MainPhase) (st : Bool) (tr : List EventCall) (ok : Bool) :
      Step ⟨m, .running, st, true, tr⟩
        ⟨m, .running, st, false, tr ++ [.keepAlive ok]⟩
  | goroStop (m : MainPhase) (tp : Bool) (tr : List EventCall) :
      Step ⟨m, .running, true, tp, tr⟩ ⟨m, .exited, true, tp, tr⟩
  | timeout (g : GoroPhase) (st tp : Bool) (tr : List EventCall) :
      Step ⟨.selecting, g, st, tp, tr⟩ ⟨.sendCompletion, g, true, tp, tr⟩
  | interrupt (g : GoroPhase) (st tp : Bool) (tr : List EventCall) :
      Step ⟨.selecting, g, st, tp, tr⟩ ⟨.sendAbort, g, true, tp, tr⟩
  | completionEvent (g : GoroPhase) (st tp : Bool) (tr : List EventCall) (ok : Bool) :
      Step ⟨.sendCompletion, g, st, tp, tr⟩
        ⟨.done, g, st, tp, tr ++ [.completion ok]⟩
  | abortEventSend (g : GoroPhase) (st tp : Bool) (tr : List EventCall) (ok : Bool) :
      Step ⟨.sendAbort, g, st, tp, tr⟩
        ⟨.done, g, st, tp, tr ++ [.abortEvent ok]⟩

/-- Reflexive-transitive closure of `Step`. -/
inductive Reachable : CoordState → CoordState → Prop where
  | refl (s : CoordState) : Reachable s s
  | tail {s t u : CoordState} : Reachable s t → Step t u → Reachable s u

/-- Whether a call is a terminal report (completion event or abort
annotation event). -/
def isTerminalEvent : EventCall → Bool
  | .completion _ => true
  | .abortEvent _ => true
  | _ => false

/-- Number of terminal reports in a trace. -/
def terminalCount (tr : List EventCall) : Nat :=
  (tr.filter isTerminalEvent).length

/-- Whether the trace contains a successful start event. -/
def startSucceeded (tr : List EventCall) : Bool :=
  tr.any fun e =>
    match e with
    | .startEvent true => true
    | _ => false

/-- A state from which the coordinator can take no further step (the
`Run` function has returned and nothing else is live). -/
def CoordinatorHalted (s : CoordState) : Prop := ∀ t, ¬ Step s t

/-- Inductive invariant of the coordinator: before the terminal decision
the trace holds no terminal report; a `done` state holds exactly one
terminal report when the start event succeeded, and none (with the
goroutine never spawned) when the start event failed. -/
def coordInv (s : CoordState) : Prop :=
  match s.main with
  | .sendStart => s.trace = [] ∧ s.goro = .notStarted
  | .selecting => terminalCount s.trace = 0 ∧ startSucceeded s.trace = true
  | .sendCompletion => terminalCount s.trace = 0 ∧ startSucceeded s.trace = true
  | .sendAbort => terminalCount s.trace = 0 ∧ startSucceeded s.trace = true
  | .done =>
      (startSucceeded s.trace = true ∧ terminalCount s.trace = 1)
      ∨ (s.trace = [.startEvent false] ∧ s.goro = .notStarted)

/-! # Theorems -/

/-! ## Scanner correctness for the duration parser -/

theorem drop_length_takeWhile (p : Char → Bool) (l : List Char) :
    l.drop (l.takeWhile p).length = l.dropWhile p := by
  induction l with
  | nil => rfl
  | cons x xs ih =>
    by_cases h : p x
    · simp [List.takeWhile_cons, List.dropWhile_cons, h, ih]
    · simp [List.takeWhile_cons, List.dropWhile_cons, h]

theorem tryMatchAt_eq_some_iff (cs : List Char) (ds : List Char) :
    tryMatchAt cs = some ds ↔ IsPTmAt cs 0 ds := by
  constructor
  · intro h
    unfold tryMatchAt at h
    split at h
    case h_2 => exact absurd h (by simp)
    case h_1 rest =>
      simp only at h
      split at h
      · exact absurd h (by simp)
      · rename_i he
        split at h
        case h_2 => exact absurd h (by simp)
        case h_1 tail hdrop =>
          simp only [Option.some.injEq] at h
          subst h
          refine ⟨by simpa [List.isEmpty_iff] using he, ?_, tail, ?_⟩
          · simp only [List.all_eq_true]
            intro c hc
            exact List.mem_takeWhile_imp hc
          · rw [drop_length_takeWhile] at hdrop
            have halt := List.takeWhile_append_dropWhile (fun c => c.isDigit) rest
            simp only [List.drop_zero]
            conv_lhs => rw [← halt]
            rw [hdrop]
  · rintro ⟨hne, hall, post, hshape⟩
    simp only [List.drop_zero] at hshape
    subst hshape
    have hdig : ∀ c ∈ ds, (fun c => c.isDigit) c = true := by
      intro c hc
      simp only [List.all_eq_true] at hall
      exact hall c hc
    have htake : (ds ++ 'm' :: post).takeWhile (fun c => c.isDigit) = ds := by
      rw [List.takeWhile_append_of_pos hdig]
      simp [List.takeWhile_cons]
    have hemp : ds.isEmpty = false := by
      cases ds with
      | nil => exact absurd rfl hne
      | cons a as => rfl
    simp only [tryMatchAt, htake, hemp, Bool.false_eq_true, if_false, List.drop_left]

theorem IsPTmAt_cons_succ (c : Char) (cs : List Char) (i : Nat) (ds : List Char) :
    IsPTmAt (c :: cs) (i + 1) ds ↔ IsPTmAt cs i ds := by
  unfold IsPTmAt
  simp [List.drop_succ_cons]

theorem findPTm_some_exists (cs : List Char) (ds : List Char) :
    findPTm cs = some ds → ∃ i, IsPTmAt cs i ds := by
  induction cs with
  | nil => intro h; simp [findPTm] at h
  | cons c cs ih =>
    intro h
    simp only [findPTm] at h
    match htry : tryMatchAt (c :: cs) with
    | some ds' =>
      rw [htry] at h
      simp only [Option.some.injEq] at h
      subst h
      exact ⟨0, (tryMatchAt_eq_some_iff _ _).mp htry⟩
    | none =>
      rw [htry] at h
      obtain ⟨i, hi⟩ := ih h
      exact ⟨i + 1, (IsPTmAt_cons_succ c cs i ds).mpr hi⟩

theorem findPTm_of_minimal (cs : List Char) (i : Nat) (ds : List Char)
    (hmatch : IsPTmAt cs i ds)
    (hmin : ∀ j ds', IsPTmAt cs j ds' → i ≤ j) :
    findPTm cs = some ds := by
  induction cs generalizing i with
  | nil =>
    obtain ⟨_, _, post, hshape⟩ := hmatch
    simp at hshape
  | cons c cs ih =>
    simp only [findPTm]
    match htry : tryMatchAt (c :: cs) with
    | some ds0 =>
      have h0 : IsPTmAt (c :: cs) 0 ds0 := (tryMatchAt_eq_some_iff _ _).mp htry
      have hi0 : i = 0 := Nat.le_zero.mp (hmin 0 ds0 h0)
      subst hi0
      have hds : tryMatchAt (c :: cs) = some ds := (tryMatchAt_eq_some_iff _ _).mpr hmatch
      rw [htry] at hds
      simpa using hds
    | none =>
      match i with
      | 0 =>
        have hds : tryMatchAt (c :: cs) = some ds := (tryMatchAt_eq_some_iff _ _).mpr hmatch
        rw [htry] at hds
        exact absurd hds (by simp)
      | i + 1 =>
        have hmatch' : IsPTmAt cs i ds := (IsPTmAt_cons_succ c cs i ds).mp hmatch
        have hmin' : ∀ j ds', IsPTmAt cs j ds' → i ≤ j := by
          intro j ds' hj
          have := hmin (j + 1) ds' ((IsPTmAt_cons_succ c cs j ds').mpr hj)
          omega
        exact ih i hmatch' hmin'

theorem findPTm_none_of_no_match (cs : List Char)
    (h : ∀ i ds, ¬ IsPTmAt cs i ds) : findPTm cs = none := by
  match hf : findPTm cs with
  | none => rfl
  | some ds =>
    obtain ⟨i, hi⟩ := findPTm_some_exists cs ds hf
    exact absurd hi (h i ds)

/-! ## Claim C3: the duration parser -/

/-- Claim C3 states that every string other than an exact `PT<n>m` form —
explicitly including strings with a leading minus and strings where
`PT<n>m` occurs only as a proper substring — fails with an invalid-format
error.  The regex is unanchored, so the code instead succeeds on such
inputs: on `"-PT5m"` (leading minus, `PT5m` a proper substring) it
returns `5` with no error. -/
theorem c3_counterexample_substringMatch :
    ParseISODuration "-PT5m" = (5, none) := by decide

/-- Claim C3, amended: if `PT<digits>m` occurs nowhere in the input, the
parser fails with an invalid-format error carrying the offending input;
if it occurs, the parser returns the value of the leftmost occurrence's
digit run, provided that value fits in Go's 64-bit `int` (otherwise
`strconv.Atoi` reports a range error instead). -/
theorem c3_amended_leftmostMatch (s : String) :
    ((∀ i ds, ¬ IsPTmAt s.data i ds) →
        ParseISODuration s = (0, some (.invalidFormat s))) ∧
    (∀ i ds, IsPTmAt s.data i ds →
        (∀ j ds', IsPTmAt s.data j ds' → i ≤ j) →
        digitsToNat ds ≤ int64Max →
        ParseISODuration s = (digitsToNat ds, none)) := by
  constructor
  · intro h
    unfold ParseISODuration
    rw [findPTm_none_of_no_match s.data h]
  · intro i ds hm hmin hle
    unfold ParseISODuration
    rw [findPTm_of_minimal s.data i ds hm hmin]
    simp [goAtoi, hle]

/-- Witness for the amended claim C3, at the input `"PT7m"` whose unique
(hence leftmost) match is at position 0 with capture `['7']`. -/
theorem c3_amended_witness : ParseISODuration "PT7m" = (7, none) := by
  have h := (c3_amended_leftmostMatch "PT7m").2 0 ['7']
    ⟨by decide, by decide, [], rfl⟩ (fun j ds' _ => Nat.zero_le j) (by decide)
  exact (by decide : digitsToNat ['7'] = 7) ▸ h

/-! ## Claim C6: parse failures default to zero minutes -/

theorem parse_error_value_eq_zero (s : String) (e : DurationError)
    (h : (ParseISODuration s).2 = some e) : (ParseISODuration s).1 = 0 := by
  unfold ParseISODuration at *
  split at h
  · rfl
  · split at h
    · rfl
    · simp at h

theorem parse_ok_value_le (s : String) (m : Nat)
    (h : ParseISODuration s = (m, none)) : m ≤ int64Max := by
  unfold ParseISODuration at h
  split at h
  · simp at h
  · rename_i ds hds
    unfold goAtoi at h
    split at h
    · simp at h
    · rename_i n heq
      simp only [Prod.mk.injEq] at h
      split at heq
      · rename_i hle
        simp only [Except.ok.injEq] at heq
        omega
      · simp at heq

/-- Claim C6: when one duration flag fails to parse and the other parses
to `m` minutes, `startCmd` reports the parse error, substitutes 0 for the
unparsed component, and computes the total planned duration as
`0 + m = m` minutes instead of aborting. -/
theorem c6_parseFailureComponentZero (ramp load : String) (m : Nat) :
    ((ParseISODuration ramp).2.isSome = true → ParseISODuration load = (m, none) →
        runDurationMinutes ramp load = (m : Int) ∧
          reportedParseErrors ramp load ≠ []) ∧
    ((ParseISODuration load).2.isSome = true → ParseISODuration ramp = (m, none) →
        runDurationMinutes ramp load = (m : Int) ∧
          reportedParseErrors ramp load ≠ []) := by
  constructor
  · intro hfail hok
    obtain ⟨e, he⟩ := Option.isSome_iff_exists.mp hfail
    have hz : (ParseISODuration ramp).1 = 0 := parse_error_value_eq_zero ramp e he
    have hle : m ≤ int64Max := parse_ok_value_le load m hok
    constructor
    · unfold runDurationMinutes goIntAdd
      rw [hz, hok]
      simp [hle]
    · unfold reportedParseErrors
      rw [he]
      simp
  · intro hfail hok
    obtain ⟨e, he⟩ := Option.isSome_iff_exists.mp hfail
    have hz : (ParseISODuration load).1 = 0 := parse_error_value_eq_zero load e he
    have hle : m ≤ int64Max := parse_ok_value_le ramp m hok
    constructor
    · unfold runDurationMinutes goIntAdd
      rw [hz, hok]
      simp [hle]
    · unfold reportedParseErrors
      rw [he]
      simp

/-- Witness for claim C6 at the spec's own example: malformed `"PT5h"`
for ramp-up with valid `"PT10m"` for constant load yields a 10-minute
total and a reported parse error. -/
theorem c6_witness :
    runDurationMinutes "PT5h" "PT10m" = (10 : Int) ∧
      reportedParseErrors "PT5h" "PT10m" ≠ [] :=
  (c6_parseFailureComponentZero "PT5h" "PT10m" 10).1 (by decide) (by decide)

/-! ## Claim C7: service client construction -/

/-- Claim C7: `NewClient` construction fails if and only if the
configured `baseUrl` is empty, or mTLS is enabled and the abstracted
`tls.X509KeyPair` rejects the configured certificate/key pair; in
particular, with a non-empty `baseUrl` and mTLS disabled it always
succeeds. -/
theorem c7_newClientFailsIff (x509KeyPair : String → String → Except String Unit)
    (config : Configuration) :
    (exceptIsError (NewClient x509KeyPair config) = true ↔
      (config.baseUrl = "" ∨ (config.mtls.enabled = true ∧
        exceptIsError (x509KeyPair config.mtls.clientCert config.mtls.clientKey) = true))) ∧
    (config.baseUrl ≠ "" → config.mtls.enabled = false →
      ∃ client, NewClient x509KeyPair config = .ok client) := by
  constructor
  · by_cases hb : config.baseUrl = "" <;>
      cases hen : config.mtls.enabled <;>
        cases hkp : x509KeyPair config.mtls.clientCert config.mtls.clientKey <;>
          simp [NewClient, createTLSClient, exceptIsError, hb, hen, hkp]
  · intro hb hen
    exact ⟨{ httpClient := { timeoutSeconds := 10, usesMTLS := false }, config := config },
      by simp [NewClient, hb, hen]⟩

/-- Witness for claim C7: with a non-empty base URL and mTLS disabled,
construction succeeds. -/
theorem c7_witness :
    ∃ client, NewClient (fun _ _ => .ok ()) sampleConfig = .ok client :=
  (c7_newClientFailsIff (fun _ _ => .ok ()) sampleConfig).2 (by decide) rfl

/-! ## Claim C5: status handling of `makeRequest` -/

/-- Claim C5 states that every non-2xx response fails the call.  The code
checks `resp.StatusCode >= 400`, so a 304 response — outside the 2xx
range — does not fail: `makeRequest` returns its body. -/
theorem c5_counterexample_status304 :
    (304 < 200 ∨ 300 ≤ 304) ∧
      makeRequest (.ok ⟨304, "304 Not Modified", "cached"⟩) = .ok "cached" :=
  ⟨by decide, rfl⟩

/-- Claim C5, amended: a response with status code 400 or above fails
with the HTTP error capturing status and body; a response with status
code below 400 — which includes every 2xx response — does not fail on
status and returns the body. -/
theorem c5_amended_status400 (resp : HttpResponse) :
    (400 ≤ resp.statusCode →
      makeRequest (.ok resp) = .error (.http resp.status resp.statusCode resp.body)) ∧
    (resp.statusCode < 400 → makeRequest (.ok resp) = .ok resp.body) := by
  constructor
  · intro h
    simp [makeRequest, h]
  · intro h
    have hn : ¬ (resp.statusCode ≥ 400) := by omega
    simp [makeRequest, hn]

/-- Witness for the amended claim C5 at a concrete 500 response. -/
theorem c5_amended_witness :
    makeRequest (.ok ⟨500, "500 Internal Server Error", "boom"⟩) =
      .error (.http "500 Internal Server Error" 500 "boom") :=
  (c5_amended_status400 ⟨500, "500 Internal Server Error", "boom"⟩).1 (by decide)

/-! ## Claim C8: `Init` and the `testRunId` field -/

/-- Claim C8: for a successful (2xx) init response whose decoded body
carries a non-empty `testRunId`, `Init` returns that identifier; when the
field is absent or empty, `Init` fails with the empty-run-id error. -/
theorem c8_initTestRunId (resp : HttpResponse)
    (decodeTestRunId : String → Except String (Option String))
    (field : Option String)
    (h2xx : 200 ≤ resp.statusCode ∧ resp.statusCode < 300)
    (hdec : decodeTestRunId resp.body = .ok field) :
    (∀ t, field = some t → t ≠ "" → Init (.ok resp) decodeTestRunId = .ok t) ∧
    ((field = none ∨ field = some "") →
      Init (.ok resp) decodeTestRunId = .error .emptyRunId) := by
  have hn : ¬ (resp.statusCode ≥ 400) := by omega
  constructor
  · intro t ht hne
    subst ht
    simp [Init, makeRequest, hn, hdec, hne]
  · rintro (rfl | rfl) <;> simp [Init, makeRequest, hn, hdec]

/-- Witness for claim C8 at a concrete 200 response whose decoded
`testRunId` is `"abc123"`. -/
theorem c8_witness :
    Init (.ok ⟨200, "200 OK", "ignored"⟩)
      (fun _ => .ok (some "abc123")) = .ok "abc123" :=
  (c8_initTestRunId ⟨200, "200 OK", "ignored"⟩
    (fun _ => .ok (some "abc123")) (some "abc123") (by decide) rfl).1
    "abc123" rfl (by decide)

/-! ## Claim C10: runtime type assertions in `TestEvent` -/

theorem bind_none_of_forall {A B : Type} (o : Option A) (f : A → Option B)
    (h : ∀ a, f a = none) : (o >>= f) = none := by
  cases o with
  | none => rfl
  | some a => exact h a

theorem assertString_eq_none (v : GoValue) (h : isStrVal v = false) :
    assertString (some v) = none := by
  cases v <;> simp_all [assertString, isStrVal]

theorem assertStringSlice_eq_none (v : GoValue) (h : isStrSliceVal v = false) :
    assertStringSlice (some v) = none := by
  cases v <;> simp_all [assertStringSlice, isStrSliceVal]

theorem assertVariableSlice_eq_none (v : GoValue) (h : isVarSliceVal v = false) :
    assertVariableSlice (some v) = none := by
  cases v <;> simp_all [assertVariableSlice, isVarSliceVal]

theorem assertDeepLinkSlice_eq_none (v : GoValue) (h : isLinkSliceVal v = false) :
    assertDeepLinkSlice (some v) = none := by
  cases v <;> simp_all [assertDeepLinkSlice, isLinkSliceVal]

/-- Claim C10: whenever `additionalData` holds one of the five
string-asserted keys with a non-string value, or one of the slice keys
with a value of the wrong slice type, the message construction of
`TestEvent` panics on the failed type assertion (modelled as `none`)
instead of returning an error. -/
theorem c10_typeAssertionPanics (config : Configuration) (testRunID : String)
    (additionalData : List (String × GoValue)) (completed : Bool)
    (k : String) (v : GoValue)
    (hlook : additionalData.lookup k = some v) (hbad : MismatchedEntry k v) :
    TestEvent_buildMessage config testRunID additionalData completed = none := by
  unfold TestEvent_buildMessage
  rcases hbad with ⟨hmem, hv⟩ | ⟨rfl, hv⟩ | ⟨rfl, hv⟩ | ⟨rfl, hv⟩
  · simp only [stringKeys, List.mem_cons, List.not_mem_nil, or_false] at hmem
    rcases hmem with rfl | rfl | rfl | rfl | rfl
    · rw [hlook, assertString_eq_none v hv]
      rfl
    · refine bind_none_of_forall _ _ (fun v1 => ?_)
      rw [hlook, assertString_eq_none v hv]
      rfl
    · refine bind_none_of_forall _ _ (fun v1 => ?_)
      refine bind_none_of_forall _ _ (fun v2 => ?_)
      rw [hlook, assertString_eq_none v hv]
      rfl
    · refine bind_none_of_forall _ _ (fun v1 => ?_)
      refine bind_none_of_forall _ _ (fun v2 => ?_)
      refine bind_none_of_forall _ _ (fun v3 => ?_)
      rw [hlook, assertString_eq_none v hv]
      rfl
    · refine bind_none_of_forall _ _ (fun v1 => ?_)
      refine bind_none_of_forall _ _ (fun v2 => ?_)
      refine bind_none_of_forall _ _ (fun v3 => ?_)
      refine bind_none_of_forall _ _ (fun v4 => ?_)
      rw [hlook, assertString_eq_none v hv]
      rfl
  · refine bind_none_of_forall _ _ (fun v1 => ?_)
    refine bind_none_of_forall _ _ (fun v2 => ?_)
    refine bind_none_of_forall _ _ (fun v3 => ?_)
    refine bind_none_of_forall _ _ (fun v4 => ?_)
    refine bind_none_of_forall _ _ (fun v5 => ?_)
    rw [hlook, assertStringSlice_eq_none v hv]
    rfl
  · refine bind_none_of_forall _ _ (fun v1 => ?_)
    refine bind_none_of_forall _ _ (fun v2 => ?_)
    refine bind_none_of_forall _ _ (fun v3 => ?_)
    refine bind_none_of_forall _ _ (fun v4 => ?_)
    refine bind_none_of_forall _ _ (fun v5 => ?_)
    refine bind_none_of_forall _ _ (fun v6 => ?_)
    rw [hlook, assertVariableSlice_eq_none v hv]
    rfl
  · refine bind_none_of_forall _ _ (fun v1 => ?_)
    refine bind_none_of_forall _ _ (fun v2 => ?_)
    refine bind_none_of_forall _ _ (fun v3 => ?_)
    refine bind_none_of_forall _ _ (fun v4 => ?_)
    refine bind_none_of_forall _ _ (fun v5 => ?_)
    refine bind_none_of_forall _ _ (fun v6 => ?_)
    refine bind_none_of_forall _ _ (fun v7 => ?_)
    rw [hlook, assertDeepLinkSlice_eq_none v hv]
    rfl

/-- Witness for claim C10: a `version` entry holding an int makes the
message construction panic. -/
theorem c10_witness :
    TestEvent_buildMessage sampleConfig "r-1"
      [("version", GoValue.intVal 3)] false = none :=
  c10_typeAssertionPanics sampleConfig "r-1" [("version", GoValue.intVal 3)] false
    "version" (GoValue.intVal 3) (by decide) (Or.inl ⟨by decide, rfl⟩)

/-! ## Claim C9: profile round-trip -/

theorem unescChars_escChars (cs : List Char) : unescChars (escChars cs) = cs := by
  induction cs with
  | nil => rfl
  | cons c cs ih =>
    by_cases h1 : c = '\\'
    · subst h1; simp [escChars, unescChars, ih]
    · by_cases h2 : c = '\n'
      · subst h2; simp [escChars, unescChars, ih]
      · cases hcs : escChars cs with
        | nil =>
          have hnil : cs = [] := by
            rw [hcs] at ih; simpa [unescChars] using ih.symm
          subst hnil
          simp [escChars, h1, h2, unescChars]
        | cons d ds =>
          rw [escChars]
          simp only [h1, h2, if_false]
          rw [hcs, unescChars]
          simp only [h1, if_false]
          rw [← hcs, ih]

theorem unescValue_escValue (s : String) : unescValue (escValue s) = s := by
  show String.mk (unescChars (escChars s.data)) = s
  rw [unescChars_escChars]

/-- Claim C9: writing a `Configuration` to the persisted profile document
and reloading it reproduces every field, including multi-line PEM text in
the mTLS certificate and key (newlines survive the value encoding). -/
theorem c9_roundTrip (c : Configuration) :
    unmarshalConfiguration (marshalConfiguration c) = c := by
  obtain ⟨a, b, ci, su, e, w, en, cc, ck⟩ := c
  cases en <;>
    simp [unmarshalConfiguration, marshalConfiguration, parseField, List.lookup,
      unescValue_escValue]

/-! ## Coordinator invariant and claims C1, C2, C4 -/

theorem terminalCount_append (tr : List EventCall) (e : EventCall) :
    terminalCount (tr ++ [e]) =
      terminalCount tr + (if isTerminalEvent e then 1 else 0) := by
  simp only [terminalCount, List.filter_append]
  cases h : isTerminalEvent e <;> simp [List.filter, h]

theorem startSucceeded_append (tr : List EventCall) (e : EventCall) :
    startSucceeded (tr ++ [e]) =
      (startSucceeded tr ||
        match e with
        | .startEvent true => true
        | _ => false) := by
  simp [startSucceeded, List.any_append]

theorem coordInv_init : coordInv coordInit := ⟨rfl, rfl⟩

theorem coordInv_step {s t : CoordState} (hs : coordInv s) (hst : Step s t) :
    coordInv t := by
  cases hst with
  | startOk g st tp tr =>
    obtain ⟨htr, -⟩ := hs
    subst htr
    exact ⟨rfl, rfl⟩
  | startFail g st tp tr =>
    obtain ⟨htr, hg⟩ := hs
    subst htr
    exact Or.inr ⟨rfl, hg⟩
  | tick m st tp tr =>
    exact hs
  | keepAlive m st tr ok =>
    cases m with
    | sendStart => exact absurd hs.2 (by simp)
    | selecting =>
      exact ⟨by simp [terminalCount_append, isTerminalEvent, hs.1],
        by simp [startSucceeded_append, hs.2]⟩
    | sendCompletion =>
      exact ⟨by simp [terminalCount_append, isTerminalEvent, hs.1],
        by simp [startSucceeded_append, hs.2]⟩
    | sendAbort =>
      exact ⟨by simp [terminalCount_append, isTerminalEvent, hs.1],
        by simp [startSucceeded_append, hs.2]⟩
    | done =>
      rcases hs with ⟨h1, h2⟩ | ⟨-, hg⟩
      · exact Or.inl ⟨by simp [startSucceeded_append, h1],
          by simp [terminalCount_append, isTerminalEvent, h2]⟩
      · exact absurd hg (by simp)
  | goroStop m tp tr =>
    cases m with
    | sendStart => exact absurd hs.2 (by simp)
    | selecting => exact hs
    | sendCompletion => exact hs
    | sendAbort => exact hs
    | done =>
      rcases hs with ⟨h1, h2⟩ | ⟨-, hg⟩
      · exact Or.inl ⟨h1, h2⟩
      · exact absurd hg (by simp)
  | timeout g st tp tr =>
    exact hs
  | interrupt g st tp tr =>
    exact hs
  | completionEvent g st tp tr ok =>
    exact Or.inl ⟨by simp [startSucceeded_append, hs.2],
      by simp [terminalCount_append, isTerminalEvent, hs.1]⟩
  | abortEventSend g st tp tr ok =>
    exact Or.inl ⟨by simp [startSucceeded_append, hs.2],
      by simp [terminalCount_append, isTerminalEvent, hs.1]⟩

theorem coordInv_reachable {s : CoordState} (h : Reachable coordInit s) :
    coordInv s := by
  induction h with
  | refl => exact coordInv_init
  | tail _ hstep ih => exact coordInv_step ih hstep

/-- Claim C2, amended: in every terminated run of the coordinator model
(which starts right after a successful `Init`, i.e. in the spec's Running
state), the trace holds exactly one terminal event when the start event
succeeded, and none when the start event failed (in which case `startCmd`
returns at once). -/
theorem c2_amended_exactlyOneTerminal (s : CoordState)
    (hreach : Reachable coordInit s) (hdone : s.main = .done) :
    (startSucceeded s.trace = true → terminalCount s.trace = 1) ∧
    (startSucceeded s.trace = false → terminalCount s.trace = 0) := by
  have hinv := coordInv_reachable hreach
  obtain ⟨m, g, st, tp, tr⟩ := s
  simp only at hdone
  subst hdone
  rcases hinv with ⟨h1, h2⟩ | ⟨h1, -⟩
  · exact ⟨fun _ => h2, fun hf => absurd h1 (by simp [hf])⟩
  · simp only at h1
    subst h1
    constructor
    · intro ht
      simp [startSucceeded] at ht
    · intro hf
      simp [terminalCount, isTerminalEvent]

/-- Witness for the amended claim C2: a concrete terminated run
(successful start, timeout path) whose trace holds exactly one terminal
event. -/
theorem c2_amended_witness :
    terminalCount [EventCall.startEvent true, EventCall.completion true] = 1 :=
  (c2_amended_exactlyOneTerminal
    ⟨.done, .running, true, false, [.startEvent true, .completion true]⟩
    (Reachable.tail (Reachable.tail (Reachable.tail (Reachable.refl _)
      (Step.startOk .notStarted false false []))
      (Step.timeout .running false false [.startEvent true]))
      (Step.completionEvent .running true false [.startEvent true] true))
    rfl).1 (by decide)

/-- Claim C2 as stated is false: a run that passed `Init` (so the model
starts in its initial state) but whose start event fails reaches a
terminated state with no terminal event at all — neither a
`completed=true` event nor an annotation event is sent. -/
theorem c2_counterexample_startFailureNoTerminal :
    Reachable coordInit ⟨.done, .notStarted, false, false, [.startEvent false]⟩ ∧
      terminalCount [.startEvent false] = 0 :=
  ⟨Reachable.tail (Reachable.refl _) (Step.startFail .notStarted false false []),
    by decide⟩

/-- Claim C1 (code bug): the coordinator can start a keep-alive call
after the terminal decision and even after the completion event.  The
exhibited run: the start event succeeds; a ticker tick is buffered; the
timeout fires and `close(stopChan)` runs; the `completed=true` event is
sent; then the goroutine's `select` — both of whose cases are ready,
since `close` does not join the goroutine — picks the ticker case and
issues a keep-alive.  Its trace places a keep-alive strictly after the
terminal call, refuting the claimed ordering. -/
theorem c1_keepAliveAfterTerminal :
    Reachable coordInit ⟨.done, .running, true, false,
      [.startEvent true, .completion true, .keepAlive true]⟩ :=
  Reachable.tail (Reachable.tail (Reachable.tail (Reachable.tail (Reachable.tail
    (Reachable.refl _)
    (Step.startOk .notStarted false false []))
    (Step.tick .selecting false false [.startEvent true]))
    (Step.timeout .running false true [.startEvent true]))
    (Step.completionEvent .running true true [.startEvent true] true))
    (Step.keepAlive .done true [.startEvent true, .completion true] true)

/-- Claim C4 as stated is false: a failure of the start event does
terminate the coordinator.  After the failed start event the model is in
a terminated state from which no step is possible — no keep-alive loop,
no terminal event, no continued lifecycle. -/
theorem c4_counterexample_startEventFatal :
    Step coordInit ⟨.done, .notStarted, false, false, [.startEvent false]⟩ ∧
      CoordinatorHalted ⟨.done, .notStarted, false, false, [.startEvent false]⟩ := by
  refine ⟨Step.startFail .notStarted false false [], ?_⟩
  intro t h
  cases h

/-- Claim C4, amended: a failed init call or a failed start event
prevents the run from proceeding (after a failed start event the
coordinator is halted), while keep-alive failures and terminal-event
failures are reported but do not terminate the coordinator: a failed
keep-alive is an ordinary step that leaves the main flow selecting, from
where a terminal event is still reached; and the terminal-report steps
reach the terminated state even when the call itself fails. -/
theorem c4_amended_onlyInitAndStartFatal :
    CoordinatorHalted ⟨.done, .notStarted, false, false, [.startEvent false]⟩ ∧
    (∀ (st : Bool) (tr : List EventCall),
      Step ⟨.selecting, .running, st, true, tr⟩
        ⟨.selecting, .running, st, false, tr ++ [.keepAlive false]⟩ ∧
      Reachable ⟨.selecting, .running, st, false, tr ++ [.keepAlive false]⟩
        ⟨.done, .running, true, false,
          (tr ++ [.keepAlive false]) ++ [.completion true]⟩) ∧
    (∀ (g : GoroPhase) (st tp : Bool) (tr : List EventCall),
      Step ⟨.sendCompletion, g, st, tp, tr⟩
        ⟨.done, g, st, tp, tr ++ [.completion false]⟩ ∧
      Step ⟨.sendAbort, g, st, tp, tr⟩
        ⟨.done, g, st, tp, tr ++ [.abortEvent false]⟩) := by
  refine ⟨?_, ?_, ?_⟩
  · intro t h
    cases h
  · intro st tr
    refine ⟨Step.keepAlive .selecting st tr false, ?_⟩
    exact Reachable.tail (Reachable.tail (Reachable.refl _)
      (Step.timeout .running st false (tr ++ [.keepAlive false])))
      (Step.completionEvent .running true false (tr ++ [.keepAlive false]) true)
  · intro g st tp tr
    exact ⟨Step.completionEvent g st tp tr false, Step.abortEventSend g st tp tr false⟩

/-- Witness for the amended claim C4: a concrete failed keep-alive step
after which the coordinator still reaches a terminated state with a
terminal event. -/
theorem c4_amended_witness :
    Step ⟨.selecting, .running, false, true, [.startEvent true]⟩
      ⟨.selecting, .running, false, false, [.startEvent true] ++ [.keepAlive false]⟩ ∧
    Reachable ⟨.selecting, .running, false, false, [.startEvent true] ++ [.keepAlive false]⟩
      ⟨.done, .running, true, false,
        ([.startEvent true] ++ [.keepAlive false]) ++ [.completion true]⟩ :=
  (c4_amended_onlyInitAndStartFatal).2.1 false [.startEvent true]

end PerfanaCli
